import Mathlib

/-!
Verification of the custody-ledger program (instruction codec, account
validator, balance processor, entry dispatcher) against its specification.
The Rust source in src/program/src is shallowly embedded: machine integers
are Nat with explicit u64 bounds at the checked operations, byte buffers are
lists of Nat, fallible paths return an explicit outcome, and a Rust panic
(out-of-range slice index) is modelled as the distinguished outcome
`aborted`, separate from a returned error.
-/

/-- Maximal u64 value, as in Rust. -/
def u64Max : Nat := 2 ^ 64 - 1

/-- Rust checked_add on u64: none exactly when the sum exceeds u64Max. -/
def checkedAdd (a b : Nat) : Option Nat :=
  if a + b ≤ u64Max then some (a + b) else none

/-- Rust checked_sub on u64: none exactly when the subtrahend exceeds the minuend. -/
def checkedSub (a b : Nat) : Option Nat :=
  if b ≤ a then some (a - b) else none

/-- u64 from_le_bytes on the first 8 bytes of a buffer. Only ever applied
after a length check of at least 8; the catch-all is unreachable at call sites. -/
def leValue8 : List Nat → Nat
  | b0 :: b1 :: b2 :: b3 :: b4 :: b5 :: b6 :: b7 :: _ =>
      b0 + 2 ^ 8 * b1 + 2 ^ 16 * b2 + 2 ^ 24 * b3 +
      2 ^ 32 * b4 + 2 ^ 40 * b5 + 2 ^ 48 * b6 + 2 ^ 56 * b7
  | _ => 0

/-- u64 to_le_bytes: the 8 little-endian bytes of a value. -/
def leBytes8 (n : Nat) : List Nat :=
  [n % 2 ^ 8, n / 2 ^ 8 % 2 ^ 8, n / 2 ^ 16 % 2 ^ 8, n / 2 ^ 24 % 2 ^ 8,
   n / 2 ^ 32 % 2 ^ 8, n / 2 ^ 40 % 2 ^ 8, n / 2 ^ 48 % 2 ^ 8, n / 2 ^ 56 % 2 ^ 8]

/-- The Rust statement data[0..8].copy_from_slice(&v.to_le_bytes()):
overwrite the first 8 bytes, keep the rest. Call sites first check the
buffer holds at least 8 bytes, as the Rust slice indexing does. -/
def writeBalance (d : List Nat) (v : Nat) : List Nat :=
  leBytes8 v ++ d.drop 8

/-- The error codes this program can report (solana_program ProgramError
constructors actually used, plus Custom for host-reported failures). -/
inductive ProgramError where
  | InvalidInstructionData
  | AccountAlreadyInitialized
  | IncorrectProgramId
  | MissingRequiredSignature
  | InsufficientFunds
  | ArithmeticOverflow
  | NotEnoughAccountKeys
  | Custom (code : Nat)
deriving Repr, DecidableEq

/-- Result of one invocation: normal return Ok(()), a returned error, or a
Rust panic (modelled distinctly: an out-of-range slice index aborts the
program instead of returning a ProgramError). -/
inductive Outcome where
  | ok
  | err (e : ProgramError)
  | aborted
deriving Repr, DecidableEq

/-- The slice of AccountInfo the program reads: identity key, owner program,
attached native-currency amount (lamports), data buffer, signer flag. -/
structure AccountInfo where
  key : Nat
  owner : Nat
  lamports : Nat
  data : List Nat
  isSigner : Bool
deriving Repr, DecidableEq

/-- The three operations of DepositInstruction in instruction.rs. -/
inductive DepositInstruction where
  | Initialize
  | Deposit
  | Withdraw (amount : Nat)
deriving Repr, DecidableEq

/-- DepositInstruction::unpack from instruction.rs: split off the tag byte
(InvalidInstructionData when empty), dispatch on 0, 1, 2; tag 2 needs at
least 8 further bytes read as a little-endian u64, trailing bytes ignored. -/
def unpack (input : List Nat) : Except ProgramError DepositInstruction :=
  match input with
  | [] => .error .InvalidInstructionData
  | tag :: rest =>
    if tag = 0 then .ok .Initialize
    else if tag = 1 then .ok .Deposit
    else if tag = 2 then
      if rest.length < 8 then .error .InvalidInstructionData
      else .ok (.Withdraw (leValue8 rest))
    else .error .InvalidInstructionData

/-- Modelled from the spec: the host transfer primitive (the system-program
transfer reached through invoke), which is not code of this repository. Per
the boundary description it moves amount native units from the first slot to
the second, failing without effect when the source holds less than amount. -/
def transfer (src dst : AccountInfo) (amount : Nat) :
    Outcome × AccountInfo × AccountInfo :=
  if src.lamports < amount then (.err (.Custom 1), src, dst)
  else (.ok, { src with lamports := src.lamports - amount },
        { dst with lamports := dst.lamports + amount })

/-- Processor::initialize_account from processor.rs. Takes user, deposit
account and system program from the account list (NotEnoughAccountKeys when
fewer than three are supplied); rejects a non-empty data buffer with
AccountAlreadyInitialized, then a wrong owner with IncorrectProgramId, then
writes 0u64 into data[0..8] - which aborts (Rust slice-range panic) whenever
the buffer is shorter than 8 bytes, hence always on the surviving
empty-buffer path. -/
def initialize_account (program_id : Nat) (accounts : List AccountInfo) :
    Outcome × List AccountInfo :=
  match accounts with
  | user :: user_deposit_account :: system_program :: rest =>
    if user_deposit_account.data.length > 0 then
      (.err .AccountAlreadyInitialized, accounts)
    else if user_deposit_account.owner ≠ program_id then
      (.err .IncorrectProgramId, accounts)
    else if user_deposit_account.data.length < 8 then
      (.aborted, accounts)
    else
      (.ok, user ::
        { user_deposit_account with
            data := writeBalance user_deposit_account.data 0 } ::
        system_program :: rest)
  | _ => (.err .NotEnoughAccountKeys, accounts)

/-- Processor::deposit from processor.rs. Owner check, then the full current
lamports of the user account are transferred to the deposit account through
the host primitive, then the stored balance in data[0..8] is increased by
that amount with checked_add (ArithmeticOverflow on failure). Reading
data[0..8] aborts when the buffer is shorter than 8 bytes. -/
def deposit (program_id : Nat) (accounts : List AccountInfo) :
    Outcome × List AccountInfo :=
  match accounts with
  | user :: user_deposit_account :: system_program :: rest =>
    if user_deposit_account.owner ≠ program_id then
      (.err .IncorrectProgramId, accounts)
    else
      let amount := user.lamports
      match transfer user user_deposit_account amount with
      | (.ok, u, v) =>
        if v.data.length < 8 then
          (.aborted, u :: v :: system_program :: rest)
        else
          let current_balance := leValue8 v.data
          match checkedAdd current_balance amount with
          | none => (.err .ArithmeticOverflow, u :: v :: system_program :: rest)
          | some new_balance =>
            (.ok, u :: { v with data := writeBalance v.data new_balance } ::
              system_program :: rest)
      | (o, u, v) => (o, u :: v :: system_program :: rest)
  | _ => (.err .NotEnoughAccountKeys, accounts)

/-- Processor::withdraw from processor.rs. Owner check, signer check, read
the stored balance from data[0..8] (aborting when the buffer is shorter than
8 bytes), reject amount above the stored balance with InsufficientFunds,
then three checked updates in source order: decrement the deposit-account
lamports, increment the user lamports, decrement the stored balance, each
returning ArithmeticOverflow on failure - note the first update is already
committed when the second fails. -/
def withdraw (program_id : Nat) (accounts : List AccountInfo) (amount : Nat) :
    Outcome × List AccountInfo :=
  match accounts with
  | user :: user_deposit_account :: rest =>
    if user_deposit_account.owner ≠ program_id then
      (.err .IncorrectProgramId, accounts)
    else if user.isSigner = false then
      (.err .MissingRequiredSignature, accounts)
    else if user_deposit_account.data.length < 8 then
      (.aborted, accounts)
    else
      let current_balance := leValue8 user_deposit_account.data
      if current_balance < amount then
        (.err .InsufficientFunds, accounts)
      else
        match checkedSub user_deposit_account.lamports amount with
        | none => (.err .ArithmeticOverflow, accounts)
        | some vaultLamports =>
          let uda1 := { user_deposit_account with lamports := vaultLamports }
          match checkedAdd user.lamports amount with
          | none => (.err .ArithmeticOverflow, user :: uda1 :: rest)
          | some userLamports =>
            let user1 := { user with lamports := userLamports }
            match checkedSub current_balance amount with
            | none => (.err .ArithmeticOverflow, user1 :: uda1 :: rest)
            | some new_balance =>
              (.ok, user1 ::
                { uda1 with data := writeBalance uda1.data new_balance } :: rest)
  | _ => (.err .NotEnoughAccountKeys, accounts)

/-- process_instruction from entrypoint.rs: decode the instruction bytes,
then dispatch to the processor; a decode failure aborts the invocation with
the decode error and no state change. -/
def process_instruction (program_id : Nat) (accounts : List AccountInfo)
    (instruction_data : List Nat) : Outcome × List AccountInfo :=
  match unpack instruction_data with
  | .error e => (.err e, accounts)
  | .ok .Initialize => initialize_account program_id accounts
  | .ok .Deposit => deposit program_id accounts
  | .ok (.Withdraw amount) => withdraw program_id accounts amount

/-- A slot is in the Initialized state: at least 8 data bytes. -/
def slotInitialized (a : AccountInfo) : Prop :=
  8 ≤ a.data.length

/-- The slot-state invariant of the spec: a slot is either Uninitialized
(empty buffer) or Initialized (at least 8 data bytes). -/
def slotInv (a : AccountInfo) : Prop :=
  a.data.length = 0 ∨ 8 ≤ a.data.length

/-- Buffer length of the slot at position i of a slot list (0 when there is
no such slot); used to state positionwise preservation of slot states. -/
def lenAt (l : List AccountInfo) (i : Nat) : Nat :=
  ((l.get? i).map (fun a => a.data.length)).getD 0

theorem leBytes8_length (n : Nat) : (leBytes8 n).length = 8 := rfl

theorem leValue8_leBytes8 (n : Nat) (t : List Nat) :
    leValue8 (leBytes8 n ++ t) = n % 2 ^ 64 := by
  simp only [leBytes8, leValue8, List.cons_append, List.nil_append]
  omega

theorem writeBalance_length (d : List Nat) (v : Nat) (h : 8 ≤ d.length) :
    (writeBalance d v).length = d.length := by
  simp [writeBalance, leBytes8]
  omega

theorem leValue8_writeBalance (d : List Nat) (v : Nat) (h : v ≤ u64Max) :
    leValue8 (writeBalance d v) = v := by
  have := leValue8_leBytes8 v (d.drop 8)
  simp only [writeBalance, this]
  have : v < 2 ^ 64 := by simp [u64Max] at h; omega
  exact Nat.mod_eq_of_lt this

theorem withdraw_ok_eq (pid : Nat) (user uda : AccountInfo)
    (rest : List AccountInfo) (amount : Nat)
    (hown : uda.owner = pid) (hsig : user.isSigner = true)
    (hlen : 8 ≤ uda.data.length) (hamt : amount ≤ leValue8 uda.data)
    (hvl : amount ≤ uda.lamports) (hul : user.lamports + amount ≤ u64Max) :
    withdraw pid (user :: uda :: rest) amount =
      (.ok, { user with lamports := user.lamports + amount } ::
        { uda with lamports := uda.lamports - amount,
                   data := writeBalance uda.data (leValue8 uda.data - amount) } ::
        rest) := by
  simp [withdraw, checkedSub, checkedAdd, hown, hsig, Nat.not_lt.mpr hlen,
    Nat.not_lt.mpr hamt, hamt, hvl, hul]

theorem deposit_ok_eq (pid : Nat) (user uda sp : AccountInfo)
    (rest : List AccountInfo)
    (hown : uda.owner = pid) (hlen : 8 ≤ uda.data.length)
    (hadd : leValue8 uda.data + user.lamports ≤ u64Max) :
    deposit pid (user :: uda :: sp :: rest) =
      (.ok, { user with lamports := 0 } ::
        { uda with lamports := uda.lamports + user.lamports,
                   data := writeBalance uda.data
                     (leValue8 uda.data + user.lamports) } :: sp :: rest) := by
  simp [deposit, transfer, checkedAdd, hown, hlen, Nat.not_lt.mpr hlen, hadd]

theorem deposit_overflow_eq (pid : Nat) (user uda sp : AccountInfo)
    (rest : List AccountInfo)
    (hown : uda.owner = pid) (hlen : 8 ≤ uda.data.length)
    (hadd : u64Max < leValue8 uda.data + user.lamports) :
    deposit pid (user :: uda :: sp :: rest) =
      (.err .ArithmeticOverflow, { user with lamports := 0 } ::
        { uda with lamports := uda.lamports + user.lamports } :: sp :: rest) := by
  simp [deposit, transfer, checkedAdd, hown, hlen, Nat.not_lt.mpr hlen,
    Nat.not_le.mpr hadd]

theorem initialize_cases (pid : Nat) (accounts : List AccountInfo) :
    (initialize_account pid accounts).1 = .ok ∨
      (initialize_account pid accounts).2 = accounts := by
  rcases accounts with _ | ⟨u, _ | ⟨v, _ | ⟨s, r⟩⟩⟩
  · right; rfl
  · right; rfl
  · right; rfl
  · simp only [initialize_account]
    split_ifs <;> simp

theorem withdraw_cases (pid : Nat) (accounts : List AccountInfo) (amount : Nat) :
    (withdraw pid accounts amount).1 = .ok ∨
      ((withdraw pid accounts amount).2.map AccountInfo.data =
          accounts.map AccountInfo.data ∧
        ((withdraw pid accounts amount).2 = accounts ∨
          (withdraw pid accounts amount).1 = .err .ArithmeticOverflow)) := by
  rcases accounts with _ | ⟨u, _ | ⟨v, r⟩⟩
  · right; exact ⟨rfl, .inl rfl⟩
  · right; exact ⟨rfl, .inl rfl⟩
  · simp only [withdraw, checkedSub, checkedAdd]
    split_ifs <;> simp

theorem deposit_cases (pid : Nat) (accounts : List AccountInfo) :
    (deposit pid accounts).1 = .ok ∨
      ((deposit pid accounts).2.map AccountInfo.data =
          accounts.map AccountInfo.data ∧
        ((deposit pid accounts).2 = accounts ∨
          (deposit pid accounts).1 = .err .ArithmeticOverflow ∨
          (deposit pid accounts).1 = .aborted)) := by
  rcases accounts with _ | ⟨u, _ | ⟨v, _ | ⟨s, r⟩⟩⟩
  · right; exact ⟨rfl, .inl rfl⟩
  · right; exact ⟨rfl, .inl rfl⟩
  · right; exact ⟨rfl, .inl rfl⟩
  · by_cases hown : v.owner = pid
    · by_cases hlen : v.data.length < 8
      · right
        refine ⟨by simp [deposit, transfer, hown, hlen], .inr (.inr ?_)⟩
        simp [deposit, transfer, hown, hlen]
      · by_cases hadd : leValue8 v.data + u.lamports ≤ u64Max
        · left; simp [deposit, transfer, checkedAdd, hown, hlen, hadd]
        · right
          refine ⟨by simp [deposit, transfer, checkedAdd, hown, hlen, hadd],
            .inr (.inl ?_)⟩
          simp [deposit, transfer, checkedAdd, hown, hlen, hadd]
    · right
      refine ⟨by simp [deposit, hown], .inl ?_⟩
      simp [deposit, hown]

theorem initialize_lengths (pid : Nat) (accounts : List AccountInfo) :
    (initialize_account pid accounts).2.map (fun a => a.data.length) =
      accounts.map (fun a => a.data.length) := by
  rcases accounts with _ | ⟨u, _ | ⟨v, _ | ⟨s, r⟩⟩⟩ <;>
    try rfl
  simp only [initialize_account]
  split_ifs with h1 h2 h3
  · rfl
  · rfl
  · rfl
  · simp only [List.map_cons]
    rw [writeBalance_length]
    omega

theorem deposit_lengths (pid : Nat) (accounts : List AccountInfo) :
    (deposit pid accounts).2.map (fun a => a.data.length) =
      accounts.map (fun a => a.data.length) := by
  rcases accounts with _ | ⟨u, _ | ⟨v, _ | ⟨s, r⟩⟩⟩ <;>
    try rfl
  by_cases hown : v.owner = pid
  · by_cases hlen : v.data.length < 8
    · simp [deposit, transfer, hown, hlen]
    · by_cases hadd : leValue8 v.data + u.lamports ≤ u64Max
      · simp [deposit, transfer, checkedAdd, hown, hlen, hadd,
          writeBalance_length, Nat.le_of_not_lt hlen]
      · simp [deposit, transfer, checkedAdd, hown, hlen, hadd]
  · simp [deposit, hown]

theorem withdraw_lengths (pid : Nat) (accounts : List AccountInfo) (amount : Nat) :
    (withdraw pid accounts amount).2.map (fun a => a.data.length) =
      accounts.map (fun a => a.data.length) := by
  rcases accounts with _ | ⟨u, _ | ⟨v, r⟩⟩ <;>
    try rfl
  simp only [withdraw, checkedSub, checkedAdd]
  split_ifs <;>
    simp_all [writeBalance_length, Nat.le_of_not_lt]

theorem process_lengths (pid : Nat) (accounts : List AccountInfo)
    (input : List Nat) :
    (process_instruction pid accounts input).2.map (fun a => a.data.length) =
      accounts.map (fun a => a.data.length) := by
  simp only [process_instruction]
  rcases h : unpack input with e | i
  · rfl
  · rcases i with _ | _ | amount
    · exact initialize_lengths pid accounts
    · exact deposit_lengths pid accounts
    · exact withdraw_lengths pid accounts amount

theorem leValue8_take (l : List Nat) : leValue8 (l.take 8) = leValue8 l := by
  rcases l with _ | ⟨b0, _ | ⟨b1, _ | ⟨b2, _ | ⟨b3, _ | ⟨b4, _ | ⟨b5, _ |
    ⟨b6, _ | ⟨b7, t⟩⟩⟩⟩⟩⟩⟩⟩ <;> rfl

theorem leValue8_le_u64Max (l : List Nat) (h : ∀ b ∈ l, b < 256) :
    leValue8 l ≤ u64Max := by
  rcases l with _ | ⟨b0, _ | ⟨b1, _ | ⟨b2, _ | ⟨b3, _ | ⟨b4, _ | ⟨b5, _ |
    ⟨b6, _ | ⟨b7, t⟩⟩⟩⟩⟩⟩⟩⟩ <;>
    simp only [leValue8, u64Max] <;> try omega
  have h0 := h b0 (by simp)
  have h1 := h b1 (by simp)
  have h2 := h b2 (by simp)
  have h3 := h b3 (by simp)
  have h4 := h b4 (by simp)
  have h5 := h b5 (by simp)
  have h6 := h b6 (by simp)
  have h7 := h b7 (by simp)
  omega

/-- C1: the spec states that the first Initialize on an empty-buffer slot
owned by the program succeeds with stored_balance = 0, and that Initialize
on a non-empty buffer fails with AccountAlreadyInitialized. The code keeps
the second half but breaks the first: the emptiness check admits only a
zero-length buffer, on which the 8-byte store into data[0..8] is an
out-of-range slice write, so Initialize never returns Ok - on the
empty-buffer path it aborts with a bounds panic. -/
theorem C1_initialize_never_succeeds :
    (∀ pid accounts,
      (initialize_account pid accounts).1 = .aborted ∨
        ∃ e, (initialize_account pid accounts).1 = .err e) ∧
      (process_instruction 7
        [⟨1, 1, 5, [], true⟩, ⟨2, 7, 0, [], false⟩, ⟨3, 3, 0, [], false⟩]
        [0]).1 = .aborted ∧
      (process_instruction 7
        [⟨1, 1, 5, [], true⟩, ⟨2, 7, 0, [0, 0, 0, 0, 0, 0, 0, 0], false⟩,
          ⟨3, 3, 0, [], false⟩]
        [0]).1 = .err .AccountAlreadyInitialized := by
  refine ⟨fun pid accounts => ?_, rfl, rfl⟩
  rcases accounts with _ | ⟨u, _ | ⟨v, _ | ⟨s, r⟩⟩⟩
  · exact .inr ⟨_, rfl⟩
  · exact .inr ⟨_, rfl⟩
  · exact .inr ⟨_, rfl⟩
  · simp only [initialize_account]
    split_ifs with h1 h2 h3
    · exact .inr ⟨_, rfl⟩
    · exact .inr ⟨_, rfl⟩
    · exact .inl rfl
    · omega

/-- C2: the claim reads the atomicity guarantee as a property of the core
logic itself: every error leaves every stored balance and every native
amount unchanged. The code commits the target-slot lamport decrement before
the requester-increment overflow guard in withdraw, so an ArithmeticOverflow
error can leave the target slot drained of amount lamports. Here a concrete
such run: balance 5, target lamports 1, requester lamports u64Max, a signed
Withdraw of 1 returns ArithmeticOverflow with the lamports already moved. -/
theorem C2_counterexample :
    (process_instruction 9
        [⟨1, 1, u64Max, [], true⟩, ⟨2, 9, 1, [5, 0, 0, 0, 0, 0, 0, 0], false⟩]
        [2, 1, 0, 0, 0, 0, 0, 0, 0]).1 = .err .ArithmeticOverflow ∧
      (process_instruction 9
        [⟨1, 1, u64Max, [], true⟩, ⟨2, 9, 1, [5, 0, 0, 0, 0, 0, 0, 0], false⟩]
        [2, 1, 0, 0, 0, 0, 0, 0, 0]).2.map AccountInfo.lamports =
        [u64Max, 0] ∧
      ([u64Max, 0] : List Nat) ≠ [u64Max, 1] := by
  refine ⟨rfl, rfl, by simp [u64Max]⟩

/-- C2 (amended): when execute returns an error, every slot's stored-balance
bytes equal their pre-call values, and for every error other than
ArithmeticOverflow the whole slot list (native amounts included) is exactly
the pre-call one; only the ArithmeticOverflow paths of Deposit and Withdraw
can return with native amounts already moved, and restoring those is left to
the host's atomic-commit boundary. -/
theorem C2_error_preserves_stored_balances (pid : Nat)
    (accounts : List AccountInfo) (input : List Nat) (e : ProgramError)
    (h : (process_instruction pid accounts input).1 = .err e) :
    (process_instruction pid accounts input).2.map AccountInfo.data =
        accounts.map AccountInfo.data ∧
      (e ≠ .ArithmeticOverflow →
        (process_instruction pid accounts input).2 = accounts) := by
  simp only [process_instruction] at h ⊢
  rcases hu : unpack input with e' | i
  · simp [hu]
  · rcases i with _ | _ | amount <;> simp only [hu] at h ⊢
    · rcases initialize_cases pid accounts with hok | hst
      · rw [hok] at h; exact absurd h (by simp)
      · rw [hst]; exact ⟨rfl, fun _ => rfl⟩
    · rcases deposit_cases pid accounts with hok | ⟨hdata, hrest⟩
      · rw [hok] at h; exact absurd h (by simp)
      · refine ⟨hdata, fun hne => ?_⟩
        rcases hrest with hst | hov | hab
        · exact hst
        · rw [hov] at h
          exact absurd (Outcome.err.inj h) (fun he => hne he.symm)
        · rw [hab] at h; exact absurd h (by simp)
    · rcases withdraw_cases pid accounts amount with hok | ⟨hdata, hrest⟩
      · rw [hok] at h; exact absurd h (by simp)
      · refine ⟨hdata, fun hne => ?_⟩
        rcases hrest with hst | hov
        · exact hst
        · rw [hov] at h
          exact absurd (Outcome.err.inj h) (fun he => hne he.symm)

/-- C2 witness: a malformed instruction on an empty slot list errors with
every stored balance (vacuously) and the whole state unchanged. -/
theorem C2_witness :
    (process_instruction 3 [] []).2.map AccountInfo.data =
        ([] : List AccountInfo).map AccountInfo.data ∧
      (ProgramError.InvalidInstructionData ≠ ProgramError.ArithmeticOverflow →
        (process_instruction 3 [] []).2 = []) :=
  C2_error_preserves_stored_balances 3 [] [] .InvalidInstructionData rfl

/-- C3: the claim states that a signed Withdraw with amount at most the
stored balance succeeds unconditionally. The stored balance and the native
amount of the slot are independent fields, and withdraw decrements the
native amount with checked_sub: on a slot whose native amount is below the
requested amount the guard fires and the call returns ArithmeticOverflow
instead of succeeding. Concrete input: balance bytes encode 5, slot holds 0
native units, signed Withdraw of 1. -/
theorem C3_counterexample :
    (withdraw 4 [⟨1, 1, 0, [], true⟩, ⟨2, 4, 0, [5, 0, 0, 0, 0, 0, 0, 0], false⟩]
        1).1 = .err .ArithmeticOverflow ∧
      (withdraw 4 [⟨1, 1, 0, [], true⟩, ⟨2, 4, 0, [5, 0, 0, 0, 0, 0, 0, 0], false⟩]
        1).1 ≠ .ok ∧
      (1 : Nat) ≤ leValue8 [5, 0, 0, 0, 0, 0, 0, 0] := by
  exact ⟨rfl, by decide, by norm_num [leValue8]⟩

/-- C3 (amended): on an initialized slot owned by the program identity, a
signed Withdraw of amount at most the stored balance succeeds provided the
slot also holds at least amount native units and the requester's native
amount plus amount fits in u64; then the slot's native amount drops by
amount, the requester's native amount grows by amount, and the stored
balance becomes the old balance minus amount; the three numeric updates are
guarded, failing with ArithmeticOverflow instead of wrapping. -/
theorem C3_withdraw_success (pid : Nat) (user uda : AccountInfo)
    (rest : List AccountInfo) (amount : Nat)
    (hown : uda.owner = pid) (hsig : user.isSigner = true)
    (hlen : 8 ≤ uda.data.length)
    (hbytes : ∀ b ∈ uda.data, b < 256)
    (hamt : amount ≤ leValue8 uda.data)
    (hvl : amount ≤ uda.lamports) (hul : user.lamports + amount ≤ u64Max) :
    withdraw pid (user :: uda :: rest) amount =
      (.ok, { user with lamports := user.lamports + amount } ::
        { uda with lamports := uda.lamports - amount,
                   data := writeBalance uda.data (leValue8 uda.data - amount) } ::
        rest) ∧
      leValue8 (writeBalance uda.data (leValue8 uda.data - amount)) =
        leValue8 uda.data - amount := by
  refine ⟨withdraw_ok_eq pid user uda rest amount hown hsig hlen hamt hvl hul, ?_⟩
  exact leValue8_writeBalance _ _
    (Nat.le_trans (Nat.sub_le _ _) (leValue8_le_u64Max _ hbytes))

/-- C3 witness: balance 7, slot lamports 50, signed withdraw of 3. -/
theorem C3_witness :
    withdraw 4 [⟨1, 1, 10, [], true⟩, ⟨2, 4, 50, [7, 0, 0, 0, 0, 0, 0, 0], false⟩]
        3 =
      (.ok, ⟨1, 1, 10 + 3, [], true⟩ ::
        ⟨2, 4, 50 - 3,
          writeBalance [7, 0, 0, 0, 0, 0, 0, 0]
            (leValue8 [7, 0, 0, 0, 0, 0, 0, 0] - 3), false⟩ :: []) ∧
      leValue8 (writeBalance [7, 0, 0, 0, 0, 0, 0, 0]
          (leValue8 [7, 0, 0, 0, 0, 0, 0, 0] - 3)) =
        leValue8 [7, 0, 0, 0, 0, 0, 0, 0] - 3 :=
  C3_withdraw_success 4 ⟨1, 1, 10, [], true⟩ ⟨2, 4, 50, [7, 0, 0, 0, 0, 0, 0, 0], false⟩
    [] 3 rfl rfl (by norm_num) (by decide) (by norm_num [leValue8])
    (by norm_num) (by norm_num [u64Max])

/-- C4: Deposit ignores any instruction payload and takes its amount to be
the depositor's entire current native amount; the host transfer moves that
amount into the target slot and the stored balance becomes the old balance
plus the amount; when that addition would exceed u64Max the call fails with
ArithmeticOverflow and the stored-balance bytes are left unchanged; no
signer requirement is enforced on the depositor, so the outcome does not
depend on the depositor's signer flag. -/
theorem C4_deposit_spec (pid : Nat) (user uda sp : AccountInfo)
    (rest : List AccountInfo)
    (hown : uda.owner = pid) (hlen : 8 ≤ uda.data.length) :
    (∀ payload : List Nat,
        process_instruction pid (user :: uda :: sp :: rest) (1 :: payload) =
          deposit pid (user :: uda :: sp :: rest)) ∧
      (∀ b : Bool,
        (deposit pid ({ user with isSigner := b } :: uda :: sp :: rest)).1 =
          (deposit pid (user :: uda :: sp :: rest)).1) ∧
      (leValue8 uda.data + user.lamports ≤ u64Max →
        deposit pid (user :: uda :: sp :: rest) =
          (.ok, { user with lamports := 0 } ::
            { uda with lamports := uda.lamports + user.lamports,
                       data := writeBalance uda.data
                         (leValue8 uda.data + user.lamports) } :: sp :: rest) ∧
        leValue8 (writeBalance uda.data (leValue8 uda.data + user.lamports)) =
          leValue8 uda.data + user.lamports) ∧
      (u64Max < leValue8 uda.data + user.lamports →
        deposit pid (user :: uda :: sp :: rest) =
          (.err .ArithmeticOverflow, { user with lamports := 0 } ::
            { uda with lamports := uda.lamports + user.lamports } ::
            sp :: rest)) := by
  refine ⟨fun payload => rfl, fun b => ?_, fun hadd => ?_, fun hadd => ?_⟩
  · by_cases hshort : uda.data.length < 8
    · simp [deposit, transfer, hown, hshort]
    · by_cases hadd : leValue8 uda.data + user.lamports ≤ u64Max <;>
        simp [deposit, transfer, checkedAdd, hown, hshort, hadd]
  · exact ⟨deposit_ok_eq pid user uda sp rest hown hlen hadd,
      leValue8_writeBalance _ _ hadd⟩
  · exact deposit_overflow_eq pid user uda sp rest hown hlen hadd

/-- C4 witness: a non-signing depositor holding 20 native units deposits
into a slot with stored balance 9; the deposit succeeds, the payload after
the tag byte is ignored, and flipping the signer flag does not change the
outcome. -/
theorem C4_witness :
    process_instruction 5
        [⟨1, 1, 20, [], false⟩, ⟨2, 5, 3, [9, 0, 0, 0, 0, 0, 0, 0], false⟩,
          ⟨3, 3, 0, [], false⟩] [1, 42, 42] =
      deposit 5
        [⟨1, 1, 20, [], false⟩, ⟨2, 5, 3, [9, 0, 0, 0, 0, 0, 0, 0], false⟩,
          ⟨3, 3, 0, [], false⟩] ∧
      deposit 5
        [⟨1, 1, 20, [], false⟩, ⟨2, 5, 3, [9, 0, 0, 0, 0, 0, 0, 0], false⟩,
          ⟨3, 3, 0, [], false⟩] =
        (.ok, ⟨1, 1, 0, [], false⟩ ::
          ⟨2, 5, 3 + 20,
            writeBalance [9, 0, 0, 0, 0, 0, 0, 0]
              (leValue8 [9, 0, 0, 0, 0, 0, 0, 0] + 20), false⟩ ::
          ⟨3, 3, 0, [], false⟩ :: []) := by
  have h := C4_deposit_spec 5 ⟨1, 1, 20, [], false⟩
    ⟨2, 5, 3, [9, 0, 0, 0, 0, 0, 0, 0], false⟩ ⟨3, 3, 0, [], false⟩ []
    rfl (by norm_num)
  exact ⟨h.1 [42, 42], (h.2.2.1 (by norm_num [leValue8, u64Max])).1⟩

/-- C5: on an initialized slot owned by the program identity, a signed
Withdraw of an amount strictly above the stored balance fails with
InsufficientFunds and changes nothing: the returned slot list is exactly
the input one, stored balance and both native amounts included. -/
theorem C5_insufficient_funds (pid : Nat) (user uda : AccountInfo)
    (rest : List AccountInfo) (amount : Nat)
    (hown : uda.owner = pid) (hsig : user.isSigner = true)
    (hlen : 8 ≤ uda.data.length) (hamt : leValue8 uda.data < amount) :
    withdraw pid (user :: uda :: rest) amount =
      (.err .InsufficientFunds, user :: uda :: rest) := by
  simp [withdraw, hown, hsig, Nat.not_lt.mpr hlen, hamt]

/-- C5 witness: balance 6, signed withdraw of 7. -/
theorem C5_witness :
    withdraw 8 [⟨1, 1, 2, [], true⟩, ⟨2, 8, 100, [6, 0, 0, 0, 0, 0, 0, 0], false⟩]
        7 =
      (.err .InsufficientFunds,
        [⟨1, 1, 2, [], true⟩, ⟨2, 8, 100, [6, 0, 0, 0, 0, 0, 0, 0], false⟩]) :=
  C5_insufficient_funds 8 ⟨1, 1, 2, [], true⟩
    ⟨2, 8, 100, [6, 0, 0, 0, 0, 0, 0, 0], false⟩ [] 7 rfl rfl (by norm_num)
    (by norm_num [leValue8])

/-- C6: on a slot owned by the program identity, a Withdraw whose requester
is not a signer fails with MissingRequiredSignature whatever the amount and
whatever the slot data (the signer check precedes the balance read), and the
returned slot list is exactly the input one. -/
theorem C6_missing_signature (pid : Nat) (user uda : AccountInfo)
    (rest : List AccountInfo) (amount : Nat)
    (hown : uda.owner = pid) (hsig : user.isSigner = false) :
    withdraw pid (user :: uda :: rest) amount =
      (.err .MissingRequiredSignature, user :: uda :: rest) := by
  simp [withdraw, hown, hsig]

/-- C6 witness: an unsigned withdraw of 1 from a slot with balance 6. -/
theorem C6_witness :
    withdraw 10 [⟨1, 1, 2, [], false⟩, ⟨2, 10, 100, [6, 0, 0, 0, 0, 0, 0, 0], true⟩]
        1 =
      (.err .MissingRequiredSignature,
        [⟨1, 1, 2, [], false⟩, ⟨2, 10, 100, [6, 0, 0, 0, 0, 0, 0, 0], true⟩]) :=
  C6_missing_signature 10 ⟨1, 1, 2, [], false⟩
    ⟨2, 10, 100, [6, 0, 0, 0, 0, 0, 0, 0], true⟩ [] 1 rfl rfl

/-- C7: unpack is total over byte buffers: the empty buffer fails with
InvalidInstructionData; tag 0 decodes to Initialize and tag 1 to Deposit
whatever follows; tag 2 with at least 8 following bytes decodes to Withdraw
of the little-endian u64 of the first 8 bytes after the tag, the trailing
bytes being ignored; tag 2 with fewer than 8 following bytes and every tag
above 2 fail with InvalidInstructionData; in particular the empty buffer and
the buffer holding only the byte 2 fail, and tag 2 followed by eight zero
bytes decodes to Withdraw of amount 0. -/
theorem C7_unpack_spec :
    unpack [] = .error .InvalidInstructionData ∧
      (∀ rest : List Nat, unpack (0 :: rest) = .ok .Initialize) ∧
      (∀ rest : List Nat, unpack (1 :: rest) = .ok .Deposit) ∧
      (∀ rest : List Nat, 8 ≤ rest.length →
        unpack (2 :: rest) = .ok (.Withdraw (leValue8 rest)) ∧
          leValue8 rest = leValue8 (rest.take 8)) ∧
      (∀ rest : List Nat, rest.length < 8 →
        unpack (2 :: rest) = .error .InvalidInstructionData) ∧
      (∀ tag rest, 3 ≤ tag →
        unpack (tag :: rest) = .error .InvalidInstructionData) ∧
      unpack [2] = .error .InvalidInstructionData ∧
      unpack [2, 0, 0, 0, 0, 0, 0, 0, 0] = .ok (.Withdraw 0) := by
  refine ⟨rfl, fun rest => rfl, fun rest => rfl, fun rest h => ?_,
    fun rest h => ?_, fun tag rest h => ?_, rfl, rfl⟩
  · exact ⟨by simp [unpack, Nat.not_lt.mpr h], (leValue8_take rest).symm⟩
  · simp [unpack, h]
  · have h0 : tag ≠ 0 := by omega
    have h1 : tag ≠ 1 := by omega
    have h2 : tag ≠ 2 := by omega
    simp [unpack, h0, h1, h2]

/-- C8: round trip. On an initialized slot owned by the program, starting
from stored balance B, a Deposit of the depositor's full native amount D
(with B + D within u64) followed by a signed Withdraw of D returns the
stored balance to B: the deposit yields balance bytes encoding B + D, the
withdraw then succeeds and rewrites them to encode (B + D) - D, whose
little-endian decoding is B again; the slot's native amount also returns to
its starting value and the requester gets D back. -/
theorem C8_round_trip (pid : Nat) (user uda sp : AccountInfo)
    (rest rest2 : List AccountInfo)
    (hown : uda.owner = pid) (hsig : user.isSigner = true)
    (hlen : 8 ≤ uda.data.length)
    (hadd : leValue8 uda.data + user.lamports ≤ u64Max) :
    deposit pid (user :: uda :: sp :: rest) =
      (.ok, { user with lamports := 0 } ::
        { uda with lamports := uda.lamports + user.lamports,
                   data := writeBalance uda.data
                     (leValue8 uda.data + user.lamports) } :: sp :: rest) ∧
      withdraw pid ({ user with lamports := 0 } ::
          { uda with lamports := uda.lamports + user.lamports,
                     data := writeBalance uda.data
                       (leValue8 uda.data + user.lamports) } :: rest2)
        user.lamports =
      (.ok, { user with lamports := user.lamports } ::
        { uda with lamports := uda.lamports,
                   data := writeBalance
                     (writeBalance uda.data (leValue8 uda.data + user.lamports))
                     (leValue8 uda.data) } :: rest2) ∧
      leValue8 (writeBalance
          (writeBalance uda.data (leValue8 uda.data + user.lamports))
          (leValue8 uda.data)) = leValue8 uda.data := by
  have hw1len : 8 ≤ (writeBalance uda.data
      (leValue8 uda.data + user.lamports)).length := by
    rw [writeBalance_length _ _ hlen]; exact hlen
  have hw1val : leValue8 (writeBalance uda.data
      (leValue8 uda.data + user.lamports)) =
      leValue8 uda.data + user.lamports := leValue8_writeBalance _ _ hadd
  refine ⟨deposit_ok_eq pid user uda sp rest hown hlen hadd, ?_,
    leValue8_writeBalance _ _ (Nat.le_trans (Nat.le_add_right _ _) hadd)⟩
  have h2 := withdraw_ok_eq pid { user with lamports := 0 }
    { uda with lamports := uda.lamports + user.lamports,
               data := writeBalance uda.data
                 (leValue8 uda.data + user.lamports) }
    rest2 user.lamports hown hsig hw1len
    (by rw [hw1val]; omega)
    (Nat.le_add_left _ _)
    (by simp; omega)
  rw [h2]
  simp [hw1val]

/-- C8 witness: balance 4, deposit of 7, then signed withdraw of 7. -/
theorem C8_witness :
    deposit 6 [⟨1, 1, 7, [], true⟩, ⟨2, 6, 9, [4, 0, 0, 0, 0, 0, 0, 0], false⟩,
        ⟨3, 3, 0, [], false⟩] =
      (.ok, ⟨1, 1, 0, [], true⟩ ::
        ⟨2, 6, 9 + 7, writeBalance [4, 0, 0, 0, 0, 0, 0, 0]
          (leValue8 [4, 0, 0, 0, 0, 0, 0, 0] + 7), false⟩ ::
        ⟨3, 3, 0, [], false⟩ :: []) ∧
      withdraw 6 (⟨1, 1, 0, [], true⟩ ::
          ⟨2, 6, 9 + 7, writeBalance [4, 0, 0, 0, 0, 0, 0, 0]
            (leValue8 [4, 0, 0, 0, 0, 0, 0, 0] + 7), false⟩ :: []) 7 =
      (.ok, ⟨1, 1, 7, [], true⟩ ::
        ⟨2, 6, 9, writeBalance
          (writeBalance [4, 0, 0, 0, 0, 0, 0, 0]
            (leValue8 [4, 0, 0, 0, 0, 0, 0, 0] + 7))
          (leValue8 [4, 0, 0, 0, 0, 0, 0, 0]), false⟩ :: []) ∧
      leValue8 (writeBalance
          (writeBalance [4, 0, 0, 0, 0, 0, 0, 0]
            (leValue8 [4, 0, 0, 0, 0, 0, 0, 0] + 7))
          (leValue8 [4, 0, 0, 0, 0, 0, 0, 0])) =
        leValue8 [4, 0, 0, 0, 0, 0, 0, 0] :=
  C8_round_trip 6 ⟨1, 1, 7, [], true⟩ ⟨2, 6, 9, [4, 0, 0, 0, 0, 0, 0, 0], false⟩
    ⟨3, 3, 0, [], false⟩ [] [] rfl rfl (by norm_num)
    (by norm_num [leValue8, u64Max])

/-- C9: the claim includes the transition Uninitialized to Initialized under
Initialize. On the code that transition never happens: on a concrete
empty-buffer slot owned by the program, Initialize aborts (bounds panic on
the 8-byte store) and every slot keeps buffer length 0, so the target slot
does not become Initialized. -/
theorem C9_counterexample :
    (process_instruction 11
        [⟨1, 1, 2, [], true⟩, ⟨2, 11, 0, [], false⟩, ⟨3, 3, 0, [], false⟩]
        [0]).1 ≠ .ok ∧
      (process_instruction 11
        [⟨1, 1, 2, [], true⟩, ⟨2, 11, 0, [], false⟩, ⟨3, 3, 0, [], false⟩]
        [0]).2.map (fun a => a.data.length) = [0, 0, 0] := by
  exact ⟨by decide, rfl⟩

/-- C9 (amended): every execute call, whatever its outcome, preserves the
buffer length of every slot; hence the slot-state invariant (empty or at
least 8 bytes) is preserved, Deposit and Withdraw keep an Initialized slot
Initialized, and no operation ever returns an Initialized slot to the
Uninitialized state; the Uninitialized-to-Initialized transition under
Initialize, however, is unrealizable because Initialize never succeeds. -/
theorem C9_invariant_preservation (pid : Nat) (accounts : List AccountInfo)
    (input : List Nat) :
    (process_instruction pid accounts input).2.map (fun a => a.data.length) =
        accounts.map (fun a => a.data.length) ∧
      ((∀ a ∈ accounts, slotInv a) →
        ∀ b ∈ (process_instruction pid accounts input).2, slotInv b) ∧
      (∀ i : Nat, 8 ≤ lenAt accounts i →
        8 ≤ lenAt (process_instruction pid accounts input).2 i) := by
  have hlen := process_lengths pid accounts input
  refine ⟨hlen, fun hinv b hb => ?_, fun i h => ?_⟩
  · have hmem : b.data.length ∈
        (process_instruction pid accounts input).2.map
          (fun a => a.data.length) :=
      List.mem_map_of_mem _ hb
    rw [hlen] at hmem
    obtain ⟨a, ha, hab⟩ := List.mem_map.mp hmem
    have hia := hinv a ha
    simp only [slotInv] at hia ⊢
    omega
  · have heq : lenAt (process_instruction pid accounts input).2 i =
        lenAt accounts i := by
      simp only [lenAt, ← List.get?_map, hlen]
    rw [heq]
    exact h

/-- C10: the claim states that deposit or withdraw on an owned slot with a
data buffer shorter than 8 bytes returns an error. Concretely, on a slot
with a 3-byte buffer, deposit aborts (Rust bounds panic at the data[0..8]
read) and returns no error at all, and a signed withdraw aborts the same
way. -/
theorem C10_counterexample :
    (deposit 12 [⟨1, 1, 4, [], true⟩, ⟨2, 12, 10, [1, 2, 3], false⟩,
        ⟨3, 3, 0, [], false⟩]).1 = .aborted ∧
      (∀ e : ProgramError,
        (deposit 12 [⟨1, 1, 4, [], true⟩, ⟨2, 12, 10, [1, 2, 3], false⟩,
          ⟨3, 3, 0, [], false⟩]).1 ≠ .err e) ∧
      (withdraw 12 [⟨1, 1, 4, [], true⟩, ⟨2, 12, 10, [1, 2, 3], false⟩] 1).1 =
        .aborted := by
  refine ⟨rfl, fun e h => ?_, rfl⟩
  have h2 : Outcome.aborted = Outcome.err e := h
  exact Outcome.noConfusion h2

/-- C10 (amended): on a slot that passes the ownership check but whose data
buffer is shorter than 8 bytes, deposit and a signed withdraw never return
Ok and never read out of bounds: the unguarded data[0..8] access aborts the
invocation with a bounds panic instead of returning a clean error, while an
unsigned withdraw still fails earlier with MissingRequiredSignature. -/
theorem C10_short_buffer_aborts (pid : Nat) (user uda sp : AccountInfo)
    (restD restW : List AccountInfo) (amount : Nat)
    (hown : uda.owner = pid) (hshort : uda.data.length < 8) :
    (deposit pid (user :: uda :: sp :: restD)).1 = .aborted ∧
      (withdraw pid (user :: uda :: restW) amount).1 =
        (if user.isSigner = true then .aborted
          else .err .MissingRequiredSignature) := by
  constructor
  · simp [deposit, transfer, hown, hshort]
  · by_cases hs : user.isSigner = true
    · simp [withdraw, hown, hs, hshort]
    · have hs2 : user.isSigner = false := by simpa using hs
      simp [withdraw, hown, hs2, hshort, hs]

/-- C10 witness: a 1-byte buffer, signed requester: both operations abort. -/
theorem C10_witness :
    (deposit 13 [⟨1, 1, 6, [], true⟩, ⟨2, 13, 20, [7], false⟩,
        ⟨3, 3, 0, [], false⟩]).1 = .aborted ∧
      (withdraw 13 [⟨1, 1, 6, [], true⟩, ⟨2, 13, 20, [7], false⟩] 2).1 =
        .aborted :=
  C10_short_buffer_aborts 13 ⟨1, 1, 6, [], true⟩ ⟨2, 13, 20, [7], false⟩
    ⟨3, 3, 0, [], false⟩ [] [] 2 rfl (by norm_num)
